import Mathlib

/-!
Shallow embedding of `src/vec2.rs` (crate `vector-rs`): the `Vec2` value type
with `f32` components, and its arithmetic, metric and orientation operations.

Modelling choices:
* `f32` components are modelled as real numbers; `f32::atan2(y, x)` is
  modelled by `Complex.arg` of `x + y·i` (a real in `(-π, π]`, `0` at the
  origin, which is the mathematical function atan2 implements).
* The in-place mutators (`&mut self` methods that return `&mut Self`) are
  modelled as functions returning the updated value.
* A separate small type `F32` models the IEEE-754 special values
  (infinities, NaN) for the claims whose content is exactly the special-value
  behaviour of the `f32` comparison; its finite arithmetic is exact (the
  claims settled on it only exercise `x - x`, which IEEE-754 computes
  exactly as `0`).
-/

/-- The machine epsilon of `f32` (`f32::EPSILON` = 2⁻²³ = 1/8388608), the
tolerance used by the `PartialEq` implementations. -/
noncomputable def EPSILON : ℝ := 1 / 8388608

/-- Model of `f32::atan2`: `y.atan2(x)` is the argument of the complex number
`x + y·i`. -/
noncomputable def atan2 (y x : ℝ) : ℝ := Complex.arg ⟨x, y⟩

/-- `pub struct Vec2 { pub x: f32, pub y: f32 }`. -/
@[ext]
structure Vec2 where
  x : ℝ
  y : ℝ

namespace Vec2

/-- `Vec2::new(x, y)` — `Self { x, y }`. -/
noncomputable def new (x y : ℝ) : Vec2 := ⟨x, y⟩

/-- Method `Vec2::add` (`self.x += rhs.x; self.y += rhs.y; self`),
instantiated at `U = Vec2`. -/
noncomputable def add (self rhs : Vec2) : Vec2 := ⟨self.x + rhs.x, self.y + rhs.y⟩

/-- Method `Vec2::sub` (`self.x -= rhs.x; self.y -= rhs.y; self`),
instantiated at `U = Vec2`. -/
noncomputable def sub (self rhs : Vec2) : Vec2 := ⟨self.x - rhs.x, self.y - rhs.y⟩

/-- `Vec2::dot` — `self.x * other.x + self.y * other.y`. -/
def dot (self other : Vec2) : ℝ := self.x * other.x + self.y * other.y

/-- `Vec2::cross` — `self.x * other.y - self.y * other.x`. -/
def cross (self other : Vec2) : ℝ := self.x * other.y - self.y * other.x

/-- `Vec2::mag` — `(self.x.powf(2.0) + self.y.powf(2.0)).sqrt()`.
`powf(2.0)` on any float is exact squaring, modelled as `^ 2`. -/
noncomputable def mag (self : Vec2) : ℝ := Real.sqrt (self.x ^ 2 + self.y ^ 2)

/-- `Vec2::dir` with the platform's `atan2` abstracted as a parameter `f`:
`if self.x.is_zero() && self.y.is_zero() { f32::zero() } else { self.y.atan2(self.x) }`.
The parameter makes it provable that the zero-vector branch does not depend
on what `f` returns at `(0, 0)`. -/
noncomputable def dirWith (f : ℝ → ℝ → ℝ) (self : Vec2) : ℝ :=
  if self.x = 0 ∧ self.y = 0 then 0 else f self.y self.x

/-- `Vec2::dir` — `dirWith` at the actual `f32::atan2`. -/
noncomputable def dir (self : Vec2) : ℝ := dirWith atan2 self

/-- `Vec2::scale` — `self.x *= value; self.y *= value; self`. -/
noncomputable def scale (self : Vec2) (value : ℝ) : Vec2 := ⟨self.x * value, self.y * value⟩

/-- `Vec2::normalize` — `let mag = self.mag(); if !mag.is_zero() { self.scale(1.0/mag); } self`. -/
noncomputable def normalize (self : Vec2) : Vec2 :=
  if self.mag ≠ 0 then self.scale (1 / self.mag) else self

/-- `Vec2::set_direction` — `let mag = self.mag();
if mag != 0.0 { self.x = rad.cos() * mag; self.y = rad.sin() * mag; } self`. -/
noncomputable def set_direction (self : Vec2) (rad : ℝ) : Vec2 :=
  if self.mag ≠ 0 then ⟨Real.cos rad * self.mag, Real.sin rad * self.mag⟩ else self

/-- `Vec2::rotate` — `self.set_direction(rad + self.dir()); self`. -/
noncomputable def rotate (self : Vec2) (rad : ℝ) : Vec2 :=
  self.set_direction (rad + self.dir)

/-- `Vec2::rotate_over` at `U = Vec2` —
`self.sub(origin); self.rotate(rad); self.add(origin); self`. -/
noncomputable def rotate_over (self origin : Vec2) (rad : ℝ) : Vec2 :=
  ((self.sub origin).rotate rad).add origin

/-- `impl From<(f32, f32)> for Vec2` — `Vec2 { x: input.0, y: input.1 }`.
(Named `fromPair` because `from` is a Lean keyword.) -/
noncomputable def fromPair (input : ℝ × ℝ) : Vec2 := ⟨input.1, input.2⟩

/-- `Vec2::rotate_over` at `U = (f32, f32)`: the generic body first runs
`let origin: Vec2 = origin.into()`. -/
noncomputable def rotate_over_pair (self : Vec2) (origin : ℝ × ℝ) (rad : ℝ) : Vec2 :=
  self.rotate_over (fromPair origin) rad

/-- `impl PartialEq<Vec2> for Vec2` —
`(self.x - other.x).abs() < f32::EPSILON && (self.y - other.y).abs() < f32::EPSILON`. -/
def eqVec (self other : Vec2) : Prop :=
  |self.x - other.x| < EPSILON ∧ |self.y - other.y| < EPSILON

/-- `impl PartialEq<(f32, f32)> for Vec2` —
`(self.x - other.0).abs() < f32::EPSILON && (self.y - other.1).abs() < f32::EPSILON`. -/
def eqPair (self : Vec2) (other : ℝ × ℝ) : Prop :=
  |self.x - other.1| < EPSILON ∧ |self.y - other.2| < EPSILON

/-- `impl Add<Vec2> for Vec2` (the value-returning operator, distinct from the
in-place method `Vec2::add`). -/
noncomputable def addOp (self rhs : Vec2) : Vec2 := ⟨self.x + rhs.x, self.y + rhs.y⟩

/-- `impl Sub<Vec2> for Vec2`. -/
noncomputable def subOp (self rhs : Vec2) : Vec2 := ⟨self.x - rhs.x, self.y - rhs.y⟩

/-- `impl Add<(f32, f32)> for Vec2` — `Vec2 { x: self.x + rhs.0, y: self.y + rhs.1 }`. -/
noncomputable def addPair (self : Vec2) (rhs : ℝ × ℝ) : Vec2 := ⟨self.x + rhs.1, self.y + rhs.2⟩

/-- `impl Sub<(f32, f32)> for Vec2` — `Vec2 { x: self.x - rhs.0, y: self.y - rhs.1 }`. -/
noncomputable def subPair (self : Vec2) (rhs : ℝ × ℝ) : Vec2 := ⟨self.x - rhs.1, self.y - rhs.2⟩

/-- `impl std::fmt::Display for Vec2` — `write!(f, "Vec2(\x7b\x7d, \x7b\x7d)", self.x, self.y)`,
with `fmt` standing for the rendering of one `f32` by Rust's `Display`. -/
def display (fmt : ℝ → String) (self : Vec2) : String :=
  "Vec2(" ++ fmt self.x ++ ", " ++ fmt self.y ++ ")"

end Vec2

namespace Pair

/-- `impl Add<Vec2> for (f32, f32)` — `Vec2 { x: self.0 + rhs.x, y: self.1 + rhs.y }`. -/
noncomputable def addVec (self : ℝ × ℝ) (rhs : Vec2) : Vec2 := ⟨self.1 + rhs.x, self.2 + rhs.y⟩

/-- `impl Sub<Vec2> for (f32, f32)` — `Vec2 { x: self.0 - rhs.x, y: self.1 - rhs.y }`. -/
noncomputable def subVec (self : ℝ × ℝ) (rhs : Vec2) : Vec2 := ⟨self.1 - rhs.x, self.2 - rhs.y⟩

end Pair

/-- A demonstration rendering of the two component values used by the
`Display` counterexample: Rust's `Display` prints `3.0f32` as `3` and
`4.0f32` as `4`. -/
noncomputable def fmtDemo : ℝ → String := fun r => if r = 3 then "3" else "4"

/-! ### The IEEE-754 special-value model, for the reflexivity claim -/

/-- An `f32` value abstracted to its IEEE-754 class: a finite value (carried
exactly as a rational), one of the two infinities, or NaN. -/
inductive F32 where
  | finite (q : ℚ)
  | inf
  | neginf
  | nan
deriving DecidableEq

/-- IEEE-754 subtraction on the abstraction: NaN propagates, `∞ - ∞` is NaN,
finite subtraction is exact (sufficient here: IEEE-754 computes `x - x`
exactly). -/
def F32.sub : F32 → F32 → F32
  | .nan, _ => .nan
  | _, .nan => .nan
  | .finite a, .finite b => .finite (a - b)
  | .finite _, .inf => .neginf
  | .finite _, .neginf => .inf
  | .inf, .inf => .nan
  | .inf, _ => .inf
  | .neginf, .neginf => .nan
  | .neginf, _ => .neginf

/-- IEEE-754 `abs` on the abstraction (`abs NaN = NaN`). -/
def F32.abs : F32 → F32
  | .finite a => .finite |a|
  | .nan => .nan
  | _ => .inf

/-- IEEE-754 `<` on the abstraction: any comparison with NaN is `false`. -/
def F32.ltb : F32 → F32 → Bool
  | .nan, _ => false
  | _, .nan => false
  | .finite a, .finite b => decide (a < b)
  | .finite _, .inf => true
  | .finite _, .neginf => false
  | .inf, _ => false
  | .neginf, .neginf => false
  | .neginf, _ => true

/-- Is the value finite (neither an infinity nor NaN)? -/
def F32.isFinite : F32 → Bool
  | .finite _ => true
  | _ => false

/-- `f32::EPSILON` = 2⁻²³ on the rational carrier. -/
def epsQ : ℚ := 1 / 8388608

/-- `Vec2` over the IEEE-754 abstraction. -/
structure Vec2F where
  x : F32
  y : F32

/-- `impl PartialEq<Vec2> for Vec2` over the IEEE-754 abstraction:
`(self.x - other.x).abs() < f32::EPSILON && (self.y - other.y).abs() < f32::EPSILON`. -/
def Vec2F.eqb (self other : Vec2F) : Bool :=
  ((self.x.sub other.x).abs.ltb (F32.finite epsQ)) &&
  ((self.y.sub other.y).abs.ltb (F32.finite epsQ))

/-! ### Helper lemmas -/

lemma Vec2.mag_nonneg (v : Vec2) : 0 ≤ v.mag := Real.sqrt_nonneg _

lemma Vec2.mag_scale (v : Vec2) (k : ℝ) : (v.scale k).mag = |k| * v.mag := by
  unfold Vec2.scale Vec2.mag
  have h : (v.x * k) ^ 2 + (v.y * k) ^ 2 = k ^ 2 * (v.x ^ 2 + v.y ^ 2) := by ring
  rw [h, Real.sqrt_mul (sq_nonneg k), Real.sqrt_sq_eq_abs]

lemma Vec2.mag_three_four : (Vec2.new 3 4).mag = 5 := by
  unfold Vec2.new Vec2.mag
  rw [show (3 : ℝ) ^ 2 + (4 : ℝ) ^ 2 = 5 ^ 2 by norm_num]
  exact Real.sqrt_sq (by norm_num)

lemma Vec2.mag_zero_zero : (Vec2.new 0 0).mag = 0 := by
  unfold Vec2.new Vec2.mag
  norm_num

/-! ### Claims -/

/-- C4: for every vector, pivot (as a vector or as a coordinate pair) and
angle, `rotate_over(origin, rad)` equals the value-level composition
`rotate(v - origin, rad) + origin`, where `-` and `+` are the value-returning
operators. -/
theorem rotate_over_eq_translate_rotate_translate (v origin : Vec2) (p : ℝ × ℝ) (rad : ℝ) :
    v.rotate_over origin rad = ((v.subOp origin).rotate rad).addOp origin ∧
    v.rotate_over_pair p rad =
      ((v.subOp (Vec2.fromPair p)).rotate rad).addOp (Vec2.fromPair p) :=
  ⟨rfl, rfl⟩

/-- C5 (partial, the direction the code defines): `v == p` holds for every
vector and pair with equal components; the reverse comparison `p == v` has no
`impl PartialEq<Vec2> for (f32, f32)` in the code and cannot be evaluated. -/
theorem eq_pair_forward (a b : ℝ) : Vec2.eqPair (Vec2.new a b) (a, b) := by
  unfold Vec2.eqPair Vec2.new EPSILON
  norm_num

/-- C6 (partial, the direction the code defines): the conversion
`(a, b) → Vec2` is lossless: it yields exactly the vector with `x = a`,
`y = b`. The code has no `impl` converting a `Vec2` back to a pair. -/
theorem fromPair_lossless (a b : ℝ) :
    (Vec2.fromPair (a, b)).x = a ∧ (Vec2.fromPair (a, b)).y = b ∧
    Vec2.fromPair (a, b) = Vec2.new a b :=
  ⟨rfl, rfl, rfl⟩

/-- C7: for all vectors `v`, `w`, the operator composition `(v + w) - w`
is equal to `v` under the epsilon-tolerant vector equality. -/
theorem add_sub_cancel_eqv (v w : Vec2) : Vec2.eqVec ((v.addOp w).subOp w) v := by
  unfold Vec2.eqVec Vec2.addOp Vec2.subOp EPSILON
  norm_num

/-- C8 counterexample: subtraction of a vector and a pair in the two operand
orders gives different results — at `v = (1, 0)`, `p = (0, 0)`, `v - p = (1, 0)`
but `p - v = (-1, 0)`, and the two are not even epsilon-equal. -/
theorem mixed_sub_order_counterexample :
    Vec2.subPair (Vec2.new 1 0) (0, 0) ≠ Pair.subVec (0, 0) (Vec2.new 1 0) ∧
    ¬ Vec2.eqVec (Vec2.subPair (Vec2.new 1 0) (0, 0)) (Pair.subVec (0, 0) (Vec2.new 1 0)) := by
  constructor
  · intro h
    have hx := congrArg Vec2.x h
    simp only [Vec2.subPair, Pair.subVec, Vec2.new] at hx
    norm_num at hx
  · intro h
    obtain ⟨h1, _⟩ := h
    simp only [Vec2.subPair, Pair.subVec, Vec2.new, EPSILON] at h1
    norm_num at h1

/-- C8 amended: add and subtract are each defined with the vector and the
pair in either operand order, and each mixed-operand form gives exactly the
result of converting the pair to a vector and applying the vector-vector
operator in that same operand order; addition moreover agrees across the two
operand orders (subtraction, being anti-commutative, does not). -/
theorem mixed_ops_spec (v : Vec2) (p : ℝ × ℝ) :
    Vec2.addPair v p = Vec2.addOp v (Vec2.fromPair p) ∧
    Pair.addVec p v = Vec2.addOp (Vec2.fromPair p) v ∧
    Vec2.addPair v p = Pair.addVec p v ∧
    Vec2.subPair v p = Vec2.subOp v (Vec2.fromPair p) ∧
    Pair.subVec p v = Vec2.subOp (Vec2.fromPair p) v := by
  refine ⟨rfl, rfl, ?_, rfl, rfl⟩
  ext
  · show v.x + p.1 = p.1 + v.x
    ring
  · show v.y + p.2 = p.2 + v.y
    ring

/-- C9 counterexample: the rendering of the vector `(3, 4)` is
`"Vec2(3, 4)"`, not `"Vector2(3, 4)"` as the claim states. -/
theorem display_counterexample :
    Vec2.display fmtDemo (Vec2.new 3 4) ≠ "Vector2(3, 4)" := by
  have h3 : fmtDemo 3 = "3" := if_pos rfl
  have h4 : fmtDemo 4 = "4" := if_neg (by norm_num)
  show ("Vec2(" ++ fmtDemo 3 ++ ", " ++ fmtDemo 4 ++ ")" : String) ≠ "Vector2(3, 4)"
  rw [h3, h4]
  decide

/-- C9 amended: for every component rendering and every vector, the textual
rendering is the string `Vec2(<x>, <y>)` (the type's name `Vec2`, not
`Vector2`), with the two component values rendered in their natural decimal
form. -/
theorem display_spec (fmt : ℝ → String) (v : Vec2) :
    Vec2.display fmt v = "Vec2(" ++ fmt v.x ++ ", " ++ fmt v.y ++ ")" := rfl

lemma Vec2.mag_one_zero : (Vec2.new 1 0).mag = 1 := by
  unfold Vec2.new Vec2.mag
  rw [show (1 : ℝ) ^ 2 + (0 : ℝ) ^ 2 = 1 by norm_num, Real.sqrt_one]

lemma Vec2.dir_of_polar {rad m : ℝ} (hm : 0 < m)
    (hrad : rad ∈ Set.Ioc (-Real.pi) Real.pi) :
    Vec2.dir ⟨Real.cos rad * m, Real.sin rad * m⟩ = rad := by
  have hne : ¬(Real.cos rad * m = 0 ∧ Real.sin rad * m = 0) := by
    rintro ⟨hx, hy⟩
    have hc : Real.cos rad = 0 := by
      rcases mul_eq_zero.1 hx with h | h
      · exact h
      · exact absurd h hm.ne'
    have hs : Real.sin rad = 0 := by
      rcases mul_eq_zero.1 hy with h | h
      · exact h
      · exact absurd h hm.ne'
    have h1 := Real.sin_sq_add_cos_sq rad
    rw [hc, hs] at h1
    norm_num at h1
  unfold Vec2.dir Vec2.dirWith
  rw [if_neg hne]
  unfold atan2
  have hz : (⟨Real.cos rad * m, Real.sin rad * m⟩ : ℂ) =
      (m : ℂ) * ((Real.cos rad : ℂ) + (Real.sin rad : ℂ) * Complex.I) := by
    rw [Complex.mk_eq_add_mul_I]
    push_cast
    ring
  rw [hz, Complex.arg_real_mul _ hm, Complex.ofReal_cos, Complex.ofReal_sin]
  exact Complex.arg_cos_add_sin_mul_I hrad

/-- C1: `normalize` leaves the vector unchanged when its magnitude is exactly
zero (the scaling by `1/magnitude` is guarded and not executed); otherwise it
multiplies both components by `1/magnitude` and the result has unit magnitude
within `1e-6` (in the real-valued model the magnitude is exactly `1`). -/
theorem normalize_spec (v : Vec2) :
    (v.mag = 0 → v.normalize = v) ∧
    (v.mag ≠ 0 → v.normalize = v.scale (1 / v.mag) ∧ |v.normalize.mag - 1| < 1e-6) := by
  constructor
  · intro h
    unfold Vec2.normalize
    rw [if_neg (by simp [h])]
  · intro h
    have hpos : 0 < v.mag := lt_of_le_of_ne v.mag_nonneg (Ne.symm h)
    have hnorm : v.normalize = v.scale (1 / v.mag) := by
      unfold Vec2.normalize
      rw [if_pos h]
    refine ⟨hnorm, ?_⟩
    rw [hnorm, Vec2.mag_scale, one_div, abs_of_pos (inv_pos.mpr hpos), inv_mul_cancel₀ h]
    norm_num

/-- C1 witness: at `(3, 4)` the magnitude `5` is nonzero and the normalized
vector has unit magnitude; at `(0, 0)` the magnitude is zero and the vector
is unchanged. -/
theorem normalize_spec_witness :
    ((Vec2.new 3 4).mag ≠ 0 ∧ |(Vec2.new 3 4).normalize.mag - 1| < 1e-6) ∧
    ((Vec2.new 0 0).mag = 0 ∧ (Vec2.new 0 0).normalize = Vec2.new 0 0) := by
  have h1 : (Vec2.new 3 4).mag ≠ 0 := by
    rw [Vec2.mag_three_four]
    norm_num
  exact ⟨⟨h1, ((normalize_spec (Vec2.new 3 4)).2 h1).2⟩,
    Vec2.mag_zero_zero, (normalize_spec (Vec2.new 0 0)).1 Vec2.mag_zero_zero⟩

/-- C2: `dir` returns exactly `0` when both components are exactly zero, via
the explicit branch — provably so for an arbitrary `atan2` implementation
`f`, hence independently of any platform convention for `atan2(0, 0)`; for
every other vector it returns `atan2(y, x)`. -/
theorem dir_spec (f : ℝ → ℝ → ℝ) (v : Vec2) :
    (v.x = 0 ∧ v.y = 0 → Vec2.dirWith f v = 0) ∧
    (¬(v.x = 0 ∧ v.y = 0) → Vec2.dirWith f v = f v.y v.x) ∧
    v.dir = Vec2.dirWith atan2 v := by
  refine ⟨fun h => ?_, fun h => ?_, rfl⟩
  · unfold Vec2.dirWith
    rw [if_pos h]
  · unfold Vec2.dirWith
    rw [if_neg h]

/-- C2 witness: the zero-vector branch returns `0` even for an `atan2`
replacement that returns `37` everywhere, and at `(0, 1)` the result is
`atan2 1 0`. -/
theorem dir_spec_witness :
    Vec2.dirWith (fun _ _ => 37) (Vec2.new 0 0) = 0 ∧
    Vec2.dirWith atan2 (Vec2.new 0 1) = atan2 1 0 ∧
    (Vec2.new 0 1).dir = Vec2.dirWith atan2 (Vec2.new 0 1) := by
  refine ⟨(dir_spec (fun _ _ => 37) (Vec2.new 0 0)).1 ⟨rfl, rfl⟩,
    (dir_spec atan2 (Vec2.new 0 1)).2.1 ?_, (dir_spec atan2 (Vec2.new 0 1)).2.2⟩
  simp [Vec2.new]

/-- C3 counterexample: at `v = (1, 0)` (magnitude `1`, nonzero) and
`rad = 2π`, `set_direction` yields the vector `(1, 0)` whose direction is
`0`, not `2π`: the new direction does not equal `rad`. -/
theorem set_direction_dir_counterexample :
    (Vec2.new 1 0).mag ≠ 0 ∧
    ((Vec2.new 1 0).set_direction (2 * Real.pi)).dir ≠ 2 * Real.pi := by
  have h1 : (Vec2.new 1 0).mag = 1 := Vec2.mag_one_zero
  refine ⟨by rw [h1]; norm_num, ?_⟩
  have hset : (Vec2.new 1 0).set_direction (2 * Real.pi) = ⟨1, 0⟩ := by
    unfold Vec2.set_direction
    rw [if_pos (show (Vec2.new 1 0).mag ≠ 0 by rw [h1]; norm_num), h1]
    ext <;> simp [Real.cos_two_pi, Real.sin_two_pi]
  rw [hset]
  have hdir : Vec2.dir ⟨1, 0⟩ = 0 := by
    unfold Vec2.dir Vec2.dirWith
    rw [if_neg (by simp)]
    unfold atan2
    rw [show (⟨1, 0⟩ : ℂ) = 1 from Complex.ext (by simp) (by simp), Complex.arg_one]
  rw [hdir]
  have hpi := Real.pi_pos
  intro h
  linarith

/-- C3 (amended): `set_direction(rad)` leaves the vector unchanged when its
magnitude is exactly zero; otherwise it sets `x = cos(rad)·magnitude` and
`y = sin(rad)·magnitude`, the magnitude is preserved exactly (hence within
any tolerance), and the new direction equals `rad` whenever `rad` lies in
`(-π, π]`, the range direction values are reported in (in general the new
direction is `rad` reduced to that range, i.e. `rad` modulo `2π`). -/
theorem set_direction_spec (v : Vec2) (rad : ℝ) :
    (v.mag = 0 → v.set_direction rad = v) ∧
    (v.mag ≠ 0 →
      (v.set_direction rad).x = Real.cos rad * v.mag ∧
      (v.set_direction rad).y = Real.sin rad * v.mag ∧
      (v.set_direction rad).mag = v.mag ∧
      (rad ∈ Set.Ioc (-Real.pi) Real.pi → (v.set_direction rad).dir = rad)) := by
  constructor
  · intro h
    unfold Vec2.set_direction
    rw [if_neg (by simp [h])]
  · intro h
    have hpos : 0 < v.mag := lt_of_le_of_ne v.mag_nonneg (Ne.symm h)
    have hset : v.set_direction rad = ⟨Real.cos rad * v.mag, Real.sin rad * v.mag⟩ := by
      unfold Vec2.set_direction
      rw [if_pos h]
    have hsq : (Real.cos rad * v.mag) ^ 2 + (Real.sin rad * v.mag) ^ 2 = v.mag ^ 2 := by
      have h1 := Real.sin_sq_add_cos_sq rad
      linear_combination v.mag ^ 2 * h1
    refine ⟨by rw [hset], by rw [hset], ?_,
      fun hrad => by rw [hset]; exact Vec2.dir_of_polar hpos hrad⟩
    calc (v.set_direction rad).mag
        = Real.sqrt ((Real.cos rad * v.mag) ^ 2 + (Real.sin rad * v.mag) ^ 2) := by
          rw [hset]; rfl
      _ = Real.sqrt (v.mag ^ 2) := by rw [hsq]
      _ = v.mag := Real.sqrt_sq v.mag_nonneg

/-- C3 witness: at `(3, 4)` (magnitude `5`) with `rad = π/2 ∈ (-π, π]` the
magnitude is preserved and the new direction is `π/2`; at `(0, 0)` the
vector is unchanged. -/
theorem set_direction_spec_witness :
    ((Vec2.new 3 4).mag ≠ 0 ∧
     ((Vec2.new 3 4).set_direction (Real.pi / 2)).mag = (Vec2.new 3 4).mag ∧
     ((Vec2.new 3 4).set_direction (Real.pi / 2)).dir = Real.pi / 2) ∧
    ((Vec2.new 0 0).mag = 0 ∧ (Vec2.new 0 0).set_direction (Real.pi / 2) = Vec2.new 0 0) := by
  have h1 : (Vec2.new 3 4).mag ≠ 0 := by
    rw [Vec2.mag_three_four]
    norm_num
  have hrad : Real.pi / 2 ∈ Set.Ioc (-Real.pi) Real.pi :=
    Set.mem_Ioc.mpr ⟨by linarith [Real.pi_pos], by linarith [Real.pi_pos]⟩
  obtain ⟨-, -, hmag, hdir⟩ := (set_direction_spec (Vec2.new 3 4) (Real.pi / 2)).2 h1
  exact ⟨⟨h1, hmag, hdir hrad⟩,
    Vec2.mag_zero_zero, (set_direction_spec (Vec2.new 0 0) (Real.pi / 2)).1 Vec2.mag_zero_zero⟩

/-- C10: over the IEEE-754 special-value model, the epsilon-tolerant equality
is reflexive exactly on vectors with finite components: `v == v` holds when
both components are finite, and is `false` when a component is NaN or
infinite (the component difference is then NaN, and `NaN < ε` is false). -/
theorem eq_self_iff_components_finite (v : Vec2F) :
    (v.x.isFinite = true ∧ v.y.isFinite = true → Vec2F.eqb v v = true) ∧
    (¬(v.x.isFinite = true ∧ v.y.isFinite = true) → Vec2F.eqb v v = false) := by
  obtain ⟨x, y⟩ := v
  cases x <;> cases y <;>
    simp [Vec2F.eqb, F32.sub, F32.abs, F32.ltb, F32.isFinite, epsQ, sub_self, abs_zero]

/-- C10 witness: reflexivity holds at `(1, 2)` (both components finite), and
fails at `(NaN, 0)` and at `(+∞, -∞)`. -/
theorem eq_self_iff_components_finite_witness :
    Vec2F.eqb ⟨F32.finite 1, F32.finite 2⟩ ⟨F32.finite 1, F32.finite 2⟩ = true ∧
    Vec2F.eqb ⟨F32.nan, F32.finite 0⟩ ⟨F32.nan, F32.finite 0⟩ = false ∧
    Vec2F.eqb ⟨F32.inf, F32.neginf⟩ ⟨F32.inf, F32.neginf⟩ = false :=
  ⟨(eq_self_iff_components_finite ⟨F32.finite 1, F32.finite 2⟩).1 (by decide),
   (eq_self_iff_components_finite ⟨F32.nan, F32.finite 0⟩).2 (by decide),
   (eq_self_iff_components_finite ⟨F32.inf, F32.neginf⟩).2 (by decide)⟩
